import Mathlib

/-!
Verification development for the STM32F411 audio crossover DSP core.

The C sources are shallowly embedded: `float` values are idealised as exact
rationals (`ℚ`), the transcendental C library functions (`expf`, `powf`,
`log10f`, `sinf`, `cosf`) are passed in as explicit function parameters of
type `ℚ → ℚ`, and the 16-bit machine integers are modelled as `ℤ` with an
explicit wrap at the int16 boundary where overflow matters.  Every
definition follows the corresponding C function statement by statement.
-/

set_option maxHeartbeats 1000000

/-- The C macro `MAX(a,b) = ((a)>(b))?(a):(b)` from dynamics.c. -/
def cMAX (a b : ℚ) : ℚ := if a > b then a else b

/-- The C macro `MIN(a,b) = ((a)<(b))?(a):(b)` from dynamics.c. -/
def cMIN (a b : ℚ) : ℚ := if a < b then a else b

/-- The C macro `CLAMP(x, low, high)` from main.h / dynamics.c:
`((x) > (high)) ? (high) : (((x) < (low)) ? (low) : (x))`. -/
def cCLAMP (x low high : ℚ) : ℚ := if x > high then high else if x < low then low else x

/-- C cast of a float to an integer type: truncation toward zero. -/
def truncQ (q : ℚ) : ℤ := if q < 0 then -⌊-q⌋ else ⌊q⌋

/-- Conversion of an integer to `int16_t`, two's-complement wrap
(the behaviour of the ARM GCC toolchain targeted by this firmware). -/
def toInt16 (z : ℤ) : ℤ := (z + 32768) % 65536 - 32768

/-- The macro `LINEAR_TO_DB(x) = 20*log10f(MAX(x, 0.00001f))`, with `log10f`
abstracted as a parameter. -/
def LINEAR_TO_DB (log10f : ℚ → ℚ) (x : ℚ) : ℚ := 20 * log10f (cMAX x (1/100000))

/-- The macro `DB_TO_LINEAR(x) = powf(10, x/20)`, with `q ↦ powf(10, q)`
abstracted as the parameter `pow10f`. -/
def DB_TO_LINEAR (pow10f : ℚ → ℚ) (x : ℚ) : ℚ := pow10f (x / 20)

/-- The macro `MS_TO_COEF(time_ms, sample_rate)` from dynamics.c:
`time_ms <= 0 ? 0 : expf(-1 / ((time_ms * 0.001) * sample_rate))`. -/
def MS_TO_COEF (expf : ℚ → ℚ) (time_ms sample_rate : ℚ) : ℚ :=
  if time_ms ≤ 0 then 0 else expf (-1 / ((time_ms * (1/1000)) * sample_rate))

/-- `DynamicsState_t`: envelope (dB), gain-reduction factor (linear),
previous absolute sample value. -/
structure DynamicsState where
  env : ℚ
  gainReduction : ℚ
  prevSample : ℚ
deriving DecidableEq

/-- `CompressorParams_t` from dynamics.h. -/
structure CompressorParams where
  threshold : ℚ
  ratio : ℚ
  attack : ℚ
  release : ℚ
  makeupGain : ℚ
  enabled : Bool
  autoMakeup : Bool
  kneeWidth : ℚ
deriving DecidableEq

/-- `Compressor_t`: state, parameters, sample rate and the cached
attack/release smoothing coefficients. -/
structure Compressor where
  state : DynamicsState
  params : CompressorParams
  sampleRate : ℚ
  attackCoef : ℚ
  releaseCoef : ℚ
deriving DecidableEq

/-- `Dynamics_DetectPeak`: `MAX(sample, prevSample)`. -/
def Dynamics_DetectPeak (sample prevSample : ℚ) : ℚ := cMAX sample prevSample

/-- `Dynamics_CompressorSetParams`: copies the parameters and recomputes the
attack and release coefficients with `MS_TO_COEF`. -/
def Dynamics_CompressorSetParams (expf : ℚ → ℚ) (comp : Compressor)
    (params : CompressorParams) : Compressor :=
  { comp with
    params := params
    attackCoef := MS_TO_COEF expf params.attack comp.sampleRate
    releaseCoef := MS_TO_COEF expf params.release comp.sampleRate }

/-- `Dynamics_CompressorReset`: env 0, gainReduction 1, prevSample 0. -/
def Dynamics_CompressorReset (comp : Compressor) : Compressor :=
  { comp with state := ⟨0, 1, 0⟩ }

/-- `calculateCompressorGain` from dynamics.c: soft-knee / hard region
transfer function, with the result floored at 0.001. -/
def calculateCompressorGain (pow10f : ℚ → ℚ) (comp : Compressor)
    (inputLevel : ℚ) : ℚ :=
  let threshold := comp.params.threshold
  let ratio := comp.params.ratio
  let kneeWidth := comp.params.kneeWidth
  let halfKneeWidth := kneeWidth * (1/2)
  let gain : ℚ :=
    if kneeWidth > 0 ∧ inputLevel > threshold - halfKneeWidth ∧
        inputLevel < threshold + halfKneeWidth then
      let kneeInput := inputLevel - threshold + halfKneeWidth
      let kneeRatio := 1 + ((ratio - 1) * kneeInput * kneeInput) / (2 * kneeWidth)
      DB_TO_LINEAR pow10f ((threshold - inputLevel) / kneeRatio)
    else if inputLevel > threshold then
      DB_TO_LINEAR pow10f (threshold - inputLevel + (inputLevel - threshold) / ratio)
    else 1
  cMAX gain (1/1000)

/-- `Dynamics_CompressorProcessSample`: peak detection, dB conversion,
asymmetric envelope follower, gain computation, gain smoothing, and the
gain application.  Returns the updated compressor and the output sample. -/
def Dynamics_CompressorProcessSample (log10f pow10f : ℚ → ℚ) (comp : Compressor)
    (sample : ℚ) : Compressor × ℚ :=
  if comp.params.enabled = false then (comp, sample)
  else
    let inputAbs := |sample|
    let peakValue := Dynamics_DetectPeak inputAbs comp.state.prevSample
    let inputLevel := LINEAR_TO_DB log10f peakValue
    let env' :=
      if inputLevel > comp.state.env then
        comp.attackCoef * comp.state.env + (1 - comp.attackCoef) * inputLevel
      else
        comp.releaseCoef * comp.state.env + (1 - comp.releaseCoef) * inputLevel
    let gain := calculateCompressorGain pow10f comp env'
    let gr' :=
      if gain < comp.state.gainReduction then
        comp.attackCoef * comp.state.gainReduction + (1 - comp.attackCoef) * gain
      else
        comp.releaseCoef * comp.state.gainReduction + (1 - comp.releaseCoef) * gain
    ({ comp with state := ⟨env', gr', inputAbs⟩ }, sample * gr')

/-- `Dynamics_CompressorProcess`: buffer version; if disabled the input is
copied through, otherwise each sample is processed and multiplied by the
linear makeup gain. -/
def Dynamics_CompressorProcess (log10f pow10f : ℚ → ℚ) (comp : Compressor)
    (input : List ℚ) : Compressor × List ℚ :=
  if comp.params.enabled = false then (comp, input)
  else
    let makeupGainLinear := DB_TO_LINEAR pow10f comp.params.makeupGain
    input.foldl
      (fun acc x =>
        let r := Dynamics_CompressorProcessSample log10f pow10f acc.1 x
        (r.1, acc.2 ++ [r.2 * makeupGainLinear]))
      (comp, ([] : List ℚ))

/-- `LimiterParams_t` from dynamics.h. -/
structure LimiterParams where
  threshold : ℚ
  release : ℚ
  enabled : Bool
  lookAhead : ℚ
deriving DecidableEq

/-- `Limiter_t`: state, parameters, sample rate, cached release coefficient.
(The attack coefficient computed in `Dynamics_LimiterSetParams` is a dead
local variable in the C source and is not part of the struct.) -/
structure Limiter where
  state : DynamicsState
  params : LimiterParams
  sampleRate : ℚ
  releaseCoef : ℚ
deriving DecidableEq

/-- `Dynamics_LimiterSetParams`: copies the parameters and recomputes the
release coefficient with `MS_TO_COEF`. -/
def Dynamics_LimiterSetParams (expf : ℚ → ℚ) (lim : Limiter)
    (params : LimiterParams) : Limiter :=
  { lim with
    params := params
    releaseCoef := MS_TO_COEF expf params.release lim.sampleRate }

/-- `Dynamics_LimiterReset`: env 0, gainReduction 1, prevSample 0. -/
def Dynamics_LimiterReset (lim : Limiter) : Limiter :=
  { lim with state := ⟨0, 1, 0⟩ }

/-- `Dynamics_LimiterProcessSample`: instant-attack envelope follower,
hard-knee gain computation, and asymmetric (instant decrease, smoothed
increase) gain application. -/
def Dynamics_LimiterProcessSample (log10f pow10f : ℚ → ℚ) (lim : Limiter)
    (sample : ℚ) : Limiter × ℚ :=
  if lim.params.enabled = false then (lim, sample)
  else
    let inputAbs := |sample|
    let peakValue := Dynamics_DetectPeak inputAbs lim.state.prevSample
    let inputLevel := LINEAR_TO_DB log10f peakValue
    let env' :=
      if inputLevel > lim.state.env then inputLevel
      else lim.releaseCoef * lim.state.env + (1 - lim.releaseCoef) * inputLevel
    let gainReduction := if env' > lim.params.threshold then lim.params.threshold - env' else 0
    let targetGain := if gainReduction > 0 then 1 else DB_TO_LINEAR pow10f gainReduction
    let gr' :=
      if targetGain < lim.state.gainReduction then targetGain
      else lim.releaseCoef * lim.state.gainReduction + (1 - lim.releaseCoef) * targetGain
    ({ lim with state := ⟨env', gr', inputAbs⟩ }, sample * gr')

/-- The compressor per-sample step exactly as the specification describes it
(§4.4): peak-hold against the previous absolute value, dB conversion,
asymmetric one-pole envelope follower (attack coefficient when the level
rises above the envelope, release when it falls), gain smoothing (attack
coefficient when the gain decreases, release when it increases), and
multiplication of the input by the smoothed gain. -/
def compressorStepSpec (log10f pow10f : ℚ → ℚ) (c : Compressor) (x : ℚ) :
    Compressor × ℚ :=
  let peak := cMAX |x| c.state.prevSample
  let level := LINEAR_TO_DB log10f peak
  let env' :=
    if level > c.state.env then
      c.attackCoef * c.state.env + (1 - c.attackCoef) * level
    else
      c.releaseCoef * c.state.env + (1 - c.releaseCoef) * level
  let g := calculateCompressorGain pow10f c env'
  let gr' :=
    if g < c.state.gainReduction then
      c.attackCoef * c.state.gainReduction + (1 - c.attackCoef) * g
    else
      c.releaseCoef * c.state.gainReduction + (1 - c.releaseCoef) * g
  ({ c with state := ⟨env', gr', |x|⟩ }, x * gr')

/-- The limiter per-sample step exactly as the specification describes it
(§4.5): the envelope jumps directly to a rising level with no smoothing,
the hard-knee target reduction is `threshold − envelope` above threshold
and 0 dB otherwise, a gain decrease is applied instantly and a gain
increase is smoothed with the release coefficient. -/
def limiterStepSpec (log10f pow10f : ℚ → ℚ) (l : Limiter) (x : ℚ) :
    Limiter × ℚ :=
  let peak := cMAX |x| l.state.prevSample
  let level := LINEAR_TO_DB log10f peak
  let env' :=
    if level > l.state.env then level
    else l.releaseCoef * l.state.env + (1 - l.releaseCoef) * level
  let reduction := if env' > l.params.threshold then l.params.threshold - env' else 0
  let target := DB_TO_LINEAR pow10f reduction
  let gr' :=
    if target < l.state.gainReduction then target
    else l.releaseCoef * l.state.gainReduction + (1 - l.releaseCoef) * target
  ({ l with state := ⟨env', gr', |x|⟩ }, x * gr')

/-- Concrete exp/log/pow stand-ins used by the witnesses. -/
def tExpf : ℚ → ℚ := fun _ => 1/2

/-- Concrete log10 stand-in used by the witnesses. -/
def tLog10f : ℚ → ℚ := fun _ => 0

/-- Concrete pow10 stand-in used by the witnesses. -/
def tPow10f : ℚ → ℚ := fun _ => 1

/-- A concrete compressor parameter record (the defaults of dynamics.h). -/
def testCompParams : CompressorParams :=
  { threshold := -20, ratio := 4, attack := 5, release := 100,
    makeupGain := 0, enabled := true, autoMakeup := false, kneeWidth := 3 }

/-- A concrete compressor instance at 48 kHz. -/
def testCompressor : Compressor :=
  { state := ⟨0, 1, 0⟩, params := testCompParams, sampleRate := 48000,
    attackCoef := 0, releaseCoef := 0 }

/-- A concrete limiter parameter record (the defaults of dynamics.h). -/
def testLimParams : LimiterParams :=
  { threshold := -3, release := 50, enabled := true, lookAhead := 0 }

/-- A concrete limiter instance at 48 kHz. -/
def testLimiter : Limiter :=
  { state := ⟨0, 1, 0⟩, params := testLimParams, sampleRate := 48000, releaseCoef := 0 }

/-- `BiquadFilter_t` from crossover.c (part_006): coefficient fields and the
four history registers.  `a0` is declared in the C struct but never written
or read by the implementation. -/
structure BiquadFilter where
  a0 : ℚ
  a1 : ℚ
  a2 : ℚ
  b0 : ℚ
  b1 : ℚ
  b2 : ℚ
  x1 : ℚ
  x2 : ℚ
  y1 : ℚ
  y2 : ℚ
deriving DecidableEq

/-- The all-zero biquad: the value of each element of the C static filter
arrays before any coefficient computation touches it. -/
def zeroBiquad : BiquadFilter := ⟨0, 0, 0, 0, 0, 0, 0, 0, 0, 0⟩

/-- `FilterChain_t`: a cascade of biquads; `filterCount` stages are active.
The C backing arrays have `MAX_FILTER_ORDER/2 = 4` entries, so `filters`
always has length 4 in the states considered. -/
structure FilterChain where
  filters : List BiquadFilter
  filterCount : ℕ
deriving DecidableEq

/-- `CrossoverFilters_t`: the six chains, the three cutoffs, the four linear
band gains, filter type (0 Butterworth, 1 Linkwitz-Riley), shared order,
four mute flags and the sample rate. -/
structure CrossoverFilters where
  subLowPass : FilterChain
  lowLowPass : FilterChain
  lowHighPass : FilterChain
  midLowPass : FilterChain
  midHighPass : FilterChain
  highHighPass : FilterChain
  lowCutoff : ℚ
  midCutoff : ℚ
  highCutoff : ℚ
  subGain : ℚ
  lowGain : ℚ
  midGain : ℚ
  highGain : ℚ
  filterType : ℕ
  filterOrder : ℕ
  subMute : Bool
  lowMute : Bool
  midMute : Bool
  highMute : Bool
  sampleRate : ℚ
deriving DecidableEq

/-- `CrossoverSettings_t`: the settings record pushed by the UI layer
(gains in dB). -/
structure CrossoverSettings where
  lowCutoff : ℚ
  midCutoff : ℚ
  highCutoff : ℚ
  subGain : ℚ
  lowGain : ℚ
  midGain : ℚ
  highGain : ℚ
  filterType : ℕ
  filterOrder : ℕ
  subMute : Bool
  lowMute : Bool
  midMute : Bool
  highMute : Bool
deriving DecidableEq

/-- The constant `PI` of crossover.c. -/
def cPI : ℚ := 3.14159265358979323846

/-- `CalculateButterworthCoefficients`: RBJ biquad design at the given
cutoff, Q and type (0 low-pass, 1 high-pass), normalised by `a0`; only the
five used coefficient fields of the filter are written. -/
def CalculateButterworthCoefficients (sinf cosf : ℚ → ℚ) (sampleRate : ℚ)
    (filter : BiquadFilter) (frequency q : ℚ) (ftype : ℕ) : BiquadFilter :=
  let omega := 2 * cPI * frequency / sampleRate
  let alpha := sinf omega / (2 * q)
  let cosw := cosf omega
  let b0 := if ftype = 0 then (1 - cosw) / 2 else (1 + cosw) / 2
  let b1 := if ftype = 0 then 1 - cosw else -(1 + cosw)
  let b2 := if ftype = 0 then (1 - cosw) / 2 else (1 + cosw) / 2
  let a0 := 1 + alpha
  let a1 := -2 * cosw
  let a2 := 1 - alpha
  { filter with
    b0 := b0 / a0
    b1 := b1 / a0
    b2 := b2 / a0
    a1 := a1 / a0
    a2 := a2 / a0 }

/-- `CalculateLinkwitzRileyCoefficients`: a Butterworth section with
`Q = 0.7071`. -/
def CalculateLinkwitzRileyCoefficients (sinf cosf : ℚ → ℚ) (sampleRate : ℚ)
    (filter : BiquadFilter) (frequency : ℚ) (ftype : ℕ) : BiquadFilter :=
  CalculateButterworthCoefficients sinf cosf sampleRate filter frequency
    (7071/10000) ftype

/-- `ResetFilter`: zero the four history registers. -/
def ResetFilter (f : BiquadFilter) : BiquadFilter :=
  { f with x1 := 0, x2 := 0, y1 := 0, y2 := 0 }

/-- Reset of one chain's backing array (all `MAX_FILTER_ORDER/2` entries,
as `ResetAllFilters` does). -/
def resetChainStates (c : FilterChain) : FilterChain :=
  { c with filters := c.filters.map ResetFilter }

/-- `ResetAllFilters`: reset the states of every stage of all six chains.
(The C function also clears the four band output scratch buffers, which
are rewritten on every `Crossover_Process` call and are not modelled.) -/
def ResetAllFilters (st : CrossoverFilters) : CrossoverFilters :=
  { st with
    subLowPass := resetChainStates st.subLowPass
    lowLowPass := resetChainStates st.lowLowPass
    lowHighPass := resetChainStates st.lowHighPass
    midLowPass := resetChainStates st.midLowPass
    midHighPass := resetChainStates st.midHighPass
    highHighPass := resetChainStates st.highHighPass }

/-- Butterworth per-stage Q table, 2nd order. -/
def qValues2 : List ℚ := [7071/10000]

/-- Butterworth per-stage Q table, 4th order. -/
def qValues4 : List ℚ := [5412/10000, 13066/10000]

/-- Butterworth per-stage Q table, 8th order. -/
def qValues8 : List ℚ := [5098/10000, 6013/10000, 9000/10000, 17412/10000]

/-- The Butterworth branch of the coefficient loop over one chain's stage
array: the first `numFilters` stages are designed, stage `i` with
`qValues[i]` (the head of the remaining Q list), later stages are left
untouched.  (The C loop nests chains inside the stage loop; the stages are
independent, so the per-chain traversal is equivalent.) -/
def calcStagesButterworth (sinf cosf : ℚ → ℚ) (sampleRate frequency : ℚ)
    (ftype : ℕ) : ℕ → List ℚ → List BiquadFilter → List BiquadFilter
  | 0, _, fs => fs
  | _ + 1, _, [] => []
  | n + 1, qs, f :: fs =>
    CalculateButterworthCoefficients sinf cosf sampleRate f frequency
        ((qs.get? 0).getD 0) ftype
      :: calcStagesButterworth sinf cosf sampleRate frequency ftype n (qs.drop 1) fs

/-- The Butterworth branch applied to a chain record. -/
def calcChainButterworth (sinf cosf : ℚ → ℚ) (sampleRate : ℚ) (qValues : List ℚ)
    (numFilters : ℕ) (frequency : ℚ) (ftype : ℕ) (chain : FilterChain) :
    FilterChain :=
  { chain with filters := calcStagesButterworth sinf cosf sampleRate frequency ftype numFilters qValues chain.filters }

/-- The Linkwitz-Riley branch of the coefficient loop over one chain's
stage array: the first `numFilters` stages get Q = 0.7071 coefficients,
later stages are left untouched. -/
def calcStagesLR (sinf cosf : ℚ → ℚ) (sampleRate frequency : ℚ) (ftype : ℕ) :
    ℕ → List BiquadFilter → List BiquadFilter
  | 0, fs => fs
  | _ + 1, [] => []
  | n + 1, f :: fs =>
    CalculateLinkwitzRileyCoefficients sinf cosf sampleRate f frequency ftype
      :: calcStagesLR sinf cosf sampleRate frequency ftype n fs

/-- The Linkwitz-Riley branch applied to a chain record. -/
def calcChainLR (sinf cosf : ℚ → ℚ) (sampleRate : ℚ) (numFilters : ℕ)
    (frequency : ℚ) (ftype : ℕ) (chain : FilterChain) : FilterChain :=
  { chain with filters := calcStagesLR sinf cosf sampleRate frequency ftype numFilters chain.filters }

/-- `CalculateFilterCoefficients` from crossover.c: reset all filter
states, then recompute stage coefficients — `filterOrder / 2` stages per
chain in the Butterworth branch, but only `filterOrder / 4` stages per
chain in the Linkwitz-Riley branch (the loop bound written in the source). -/
def CalculateFilterCoefficients (sinf cosf : ℚ → ℚ) (st : CrossoverFilters) :
    CrossoverFilters :=
  let st := ResetAllFilters st
  if st.filterType = 0 then
    let qValues := match st.filterOrder with
      | 2 => qValues2
      | 4 => qValues4
      | 8 => qValues8
      | _ => qValues4
    let numFilters := st.filterOrder / 2
    { st with
      subLowPass := calcChainButterworth sinf cosf st.sampleRate qValues
        numFilters st.lowCutoff 0 st.subLowPass
      lowHighPass := calcChainButterworth sinf cosf st.sampleRate qValues
        numFilters st.lowCutoff 1 st.lowHighPass
      lowLowPass := calcChainButterworth sinf cosf st.sampleRate qValues
        numFilters st.midCutoff 0 st.lowLowPass
      midHighPass := calcChainButterworth sinf cosf st.sampleRate qValues
        numFilters st.midCutoff 1 st.midHighPass
      midLowPass := calcChainButterworth sinf cosf st.sampleRate qValues
        numFilters st.highCutoff 0 st.midLowPass
      highHighPass := calcChainButterworth sinf cosf st.sampleRate qValues
        numFilters st.highCutoff 1 st.highHighPass }
  else
    let numFilters := st.filterOrder / 4
    { st with
      subLowPass := calcChainLR sinf cosf st.sampleRate numFilters
        st.lowCutoff 0 st.subLowPass
      lowHighPass := calcChainLR sinf cosf st.sampleRate numFilters
        st.lowCutoff 1 st.lowHighPass
      lowLowPass := calcChainLR sinf cosf st.sampleRate numFilters
        st.midCutoff 0 st.lowLowPass
      midHighPass := calcChainLR sinf cosf st.sampleRate numFilters
        st.midCutoff 1 st.midHighPass
      midLowPass := calcChainLR sinf cosf st.sampleRate numFilters
        st.highCutoff 0 st.midLowPass
      highHighPass := calcChainLR sinf cosf st.sampleRate numFilters
        st.highCutoff 1 st.highHighPass }

/-- `ProcessBiquad`: Direct-Form-II step using the `x1`,`x2` registers. -/
def ProcessBiquad (f : BiquadFilter) (input : ℚ) : BiquadFilter × ℚ :=
  let output := input - f.a1 * f.x1 - f.a2 * f.x2
  let result := f.b0 * output + f.b1 * f.x1 + f.b2 * f.x2
  ({ f with x2 := f.x1, x1 := output }, result)

/-- The loop body of `ProcessFilterChain`: run the sample through the first
`count` stages of the cascade, updating each stage's registers. -/
def ProcessFilterChainAux : ℕ → List BiquadFilter → ℚ → List BiquadFilter × ℚ
  | 0, fs, x => (fs, x)
  | _ + 1, [], x => ([], x)
  | n + 1, f :: fs, x =>
    let r := ProcessBiquad f x
    let rest := ProcessFilterChainAux n fs r.2
    (r.1 :: rest.1, rest.2)

/-- `ProcessFilterChain`: run a sample through the chain's active stages. -/
def ProcessFilterChain (chain : FilterChain) (input : ℚ) : FilterChain × ℚ :=
  let r := ProcessFilterChainAux chain.filterCount chain.filters input
  ({ chain with filters := r.1 }, r.2)

/-- The per-sample body of `Crossover_Process`: filter the input through the
six chains (band-pass bands as low-pass after high-pass), then apply mute
(which forces 0.0) or the linear band gain. -/
def Crossover_ProcessSample (st : CrossoverFilters) (inputSample : ℚ) :
    CrossoverFilters × (ℚ × ℚ × ℚ × ℚ) :=
  let rSub := ProcessFilterChain st.subLowPass inputSample
  let rLowHP := ProcessFilterChain st.lowHighPass inputSample
  let rLowLP := ProcessFilterChain st.lowLowPass rLowHP.2
  let rMidHP := ProcessFilterChain st.midHighPass inputSample
  let rMidLP := ProcessFilterChain st.midLowPass rMidHP.2
  let rHigh := ProcessFilterChain st.highHighPass inputSample
  let subSample := if st.subMute then 0 else rSub.2 * st.subGain
  let lowSample := if st.lowMute then 0 else rLowLP.2 * st.lowGain
  let midSample := if st.midMute then 0 else rMidLP.2 * st.midGain
  let highSample := if st.highMute then 0 else rHigh.2 * st.highGain
  ({ st with
     subLowPass := rSub.1
     lowHighPass := rLowHP.1
     lowLowPass := rLowLP.1
     midHighPass := rMidHP.1
     midLowPass := rMidLP.1
     highHighPass := rHigh.1 },
   (subSample, lowSample, midSample, highSample))

/-- `Crossover_Process`: the block loop over the per-sample body, returning
the final filter state and the list of per-sample band outputs
(sub, low, mid, high). -/
def Crossover_Process (st : CrossoverFilters) :
    List ℚ → CrossoverFilters × List (ℚ × ℚ × ℚ × ℚ)
  | [] => (st, [])
  | x :: xs =>
    let r := Crossover_ProcessSample st x
    let rest := Crossover_Process r.1 xs
    (rest.1, r.2 :: rest.2)

/-- `Crossover_SetSettings` from crossover.c (part_006): copy the requested
cutoffs verbatim (no clamping appears in the source), convert the dB gains
to linear, copy type/order/mutes, set every chain's active stage count to
`filterOrder / 2`, and recompute all filter coefficients. -/
def Crossover_SetSettings (pow10f sinf cosf : ℚ → ℚ) (st : CrossoverFilters)
    (settings : CrossoverSettings) : CrossoverFilters :=
  let filterCount := settings.filterOrder / 2
  CalculateFilterCoefficients sinf cosf
    { st with
      lowCutoff := settings.lowCutoff
      midCutoff := settings.midCutoff
      highCutoff := settings.highCutoff
      subGain := DB_TO_LINEAR pow10f settings.subGain
      lowGain := DB_TO_LINEAR pow10f settings.lowGain
      midGain := DB_TO_LINEAR pow10f settings.midGain
      highGain := DB_TO_LINEAR pow10f settings.highGain
      filterType := settings.filterType
      filterOrder := settings.filterOrder
      subMute := settings.subMute
      lowMute := settings.lowMute
      midMute := settings.midMute
      highMute := settings.highMute
      subLowPass := { st.subLowPass with filterCount := filterCount }
      lowLowPass := { st.lowLowPass with filterCount := filterCount }
      lowHighPass := { st.lowHighPass with filterCount := filterCount }
      midLowPass := { st.midLowPass with filterCount := filterCount }
      midHighPass := { st.midHighPass with filterCount := filterCount }
      highHighPass := { st.highHighPass with filterCount := filterCount } }


/-- The size `AUDIO_BUFFER_SIZE` of one interleaved stereo block (int16
entries); `AUDIO_BUFFER_SIZE / 2 = 128` mono frames per channel. -/
def AUDIO_BUFFER_SIZE : ℕ := 256

/-- The statistics record `AudioProcessingStats_t` (the fields the modelled
paths touch); band-indexed meters are ℕ-indexed functions. -/
structure AudioProcessingStats where
  inputPeakL : ℚ
  inputPeakR : ℚ
  outputPeakL : ℚ
  outputPeakR : ℚ
  bandPeak : ℕ → ℕ → ℚ
  compressionAmount : ℕ → ℚ
  limiterActivity : ℕ → ℚ
  clippingCount : ℕ
  processingTime : ℕ

/-- `ConvertToFloat`: de-interleave and scale by `1/MAX_SAMPLE_VALUE`
(= 1/32767); returns the left and right float channel buffers. -/
def ConvertToFloat (input : ℕ → ℤ) : (ℕ → ℚ) × (ℕ → ℚ) :=
  (fun i => (input (2 * i) : ℚ) * (1/32767),
   fun i => (input (2 * i + 1) : ℚ) * (1/32767))

/-- The scan loop of `UpdatePeakLevels`: maximum absolute value of the
first `n` samples, starting from 0. -/
def peakScan (buf : ℕ → ℚ) : ℕ → ℚ
  | 0 => 0
  | n + 1 =>
    let m := peakScan buf n
    if |buf n| > m then |buf n| else m

/-- One channel of `UpdatePeakLevels`: a new maximum replaces the peak,
otherwise the stored peak decays by the factor 0.8. -/
def UpdatePeakLevel (buf : ℕ → ℚ) (n : ℕ) (peak : ℚ) : ℚ :=
  let mx := peakScan buf n
  if mx > peak then mx else peak * (8/10)

/-- The per-sample body of `ConvertToInt16`: scale by `MAX_SAMPLE_VALUE`,
clamp to `[MIN_SAMPLE_VALUE, MAX_SAMPLE_VALUE]` counting 1 clip when the
pre-clamp value is out of range, then cast to int16 (truncation). -/
def convertSampleI16 (q : ℚ) : ℤ × ℕ :=
  let s := q * 32767
  if s > 32767 ∨ s < -32768 then (truncQ (cCLAMP s (-32768) 32767), 1)
  else (truncQ s, 0)

/-- `ConvertToInt16` over the first `n` frames: interleaved int16 output
(left at `2*i`, right at `2*i+1`) and the total clip count of the block. -/
def ConvertToInt16 (inputL inputR : ℕ → ℚ) : ℕ → (ℕ → ℤ) × ℕ
  | 0 => (fun _ => 0, 0)
  | n + 1 =>
    let prev := ConvertToInt16 inputL inputR n
    let l := convertSampleI16 (inputL n)
    let r := convertSampleI16 (inputR n)
    (fun j => if j = 2 * n then l.1 else if j = 2 * n + 1 then r.1 else prev.1 j,
     prev.2 + l.2 + r.2)

/-- `MixBands`: pointwise sum of the four band buffers. -/
def MixBands (subB lowB midB highB : ℕ → ℚ) : ℕ → ℚ :=
  fun i => subB i + lowB i + midB i + highB i

/-- `ApplyGain`: multiply the first `n` samples by the linear gain derived
from the dB value. -/
def ApplyGain (pow10f : ℚ → ℚ) (buf : ℕ → ℚ) (n : ℕ) (gainDB : ℚ) : ℕ → ℚ :=
  fun i => if i < n then buf i * DB_TO_LINEAR pow10f gainDB else buf i

/-- The per-band body of the `AudioProcessing_Process` loop: a muted band
is zeroed over the `n` processed samples and skips every later stage;
otherwise gain, then compressor (if enabled), limiter (if enabled), and the
delay stage are applied.  The band compressor/limiter/delay routines called
here (`Compressor_Process`, `Limiter_Process` and the six-argument
`Delay_Process`) are declared but not defined in the repository snapshot,
so they are opaque stage parameters; a muted band never reaches them. -/
def AudioProcessing_ProcessBand (pow10f : ℚ → ℚ)
    (compressorStage limiterStage delayStage : ℕ → (ℕ → ℚ) → (ℕ → ℚ))
    (n band : ℕ) (mute : Bool) (gainDB : ℚ) (compEnabled limEnabled : Bool)
    (buf : ℕ → ℚ) : ℕ → ℚ :=
  if mute then (fun i => if i < n then 0 else buf i)
  else
    let b1 := ApplyGain pow10f buf n gainDB
    let b2 := if compEnabled then compressorStage band b1 else b1
    let b3 := if limEnabled then limiterStage band b2 else b2
    delayStage band b3

/-- `AudioProcessing_Process`, bypass path: the output block is the input
block (`memcpy`), the input peak meters are updated from the scaled floats,
the output peak meters mirror them, the processing time is recorded, and no
other stage runs.  The non-bypass pipeline is an opaque parameter (its
callees are absent from the repository snapshot; its band loop is modelled
separately by `AudioProcessing_ProcessBand`). -/
def AudioProcessing_Process
    (nonBypass : (ℕ → ℤ) → AudioProcessingStats → (ℕ → ℤ) × AudioProcessingStats)
    (bypassEnabled : Bool) (tick : ℕ) (input : ℕ → ℤ)
    (stats : AudioProcessingStats) : (ℕ → ℤ) × AudioProcessingStats :=
  if bypassEnabled then
    let monoFrames := AUDIO_BUFFER_SIZE / 2
    let fl := ConvertToFloat input
    let pkL := UpdatePeakLevel fl.1 monoFrames stats.inputPeakL
    let pkR := UpdatePeakLevel fl.2 monoFrames stats.inputPeakR
    (input,
     { stats with
       inputPeakL := pkL
       inputPeakR := pkR
       outputPeakL := pkL
       outputPeakR := pkR
       processingTime := tick })
  else nonBypass input stats

/-- `Delay_t` from delay.h: per-channel 4800-sample circular int16 buffers,
one shared write index, per-channel read indices, phase flags, fractional
delay lengths in samples, and the deferred-update flag. -/
structure DelayInstance where
  buffer : ℕ → ℕ → ℤ
  writeIndex : ℕ
  readIndex : ℕ → ℕ
  phaseInvert : ℕ → Bool
  delaySamples : ℕ → ℚ
  needsUpdate : Bool

/-- `MAX_DELAY_MS` from delay.h. -/
def MAX_DELAY_MS : ℚ := 100

/-- `Delay_SetDelayTime`: reject channels ≥ 4, clamp the requested delay to
`[0, MAX_DELAY_MS]`, convert it to samples (`ms * 48000/1000`), store it,
and mark the parameters for deferred update.  The buffer contents, indices
and phase flags are untouched. -/
def Delay_SetDelayTime (st : DelayInstance) (channel : ℕ) (delayMs : ℚ) :
    DelayInstance :=
  if 4 ≤ channel then st
  else
    let d := cCLAMP delayMs 0 MAX_DELAY_MS
    { st with
      delaySamples := Function.update st.delaySamples channel (d * 48)
      needsUpdate := true }

/-- `Delay_SetPhaseInvert`: reject channels ≥ 4, store the flag. -/
def Delay_SetPhaseInvert (st : DelayInstance) (channel : ℕ) (invert : Bool) :
    DelayInstance :=
  if 4 ≤ channel then st
  else { st with phaseInvert := Function.update st.phaseInvert channel invert }

/-- The `while (readPos < 0) readPos += DELAY_BUFFER_SIZE` loop of
`Delay_UpdateParameters`. -/
def wrapNonneg (z : ℤ) : ℤ :=
  if z < 0 then wrapNonneg (z + 4800) else z
termination_by (-z).toNat
decreasing_by omega

/-- `Delay_UpdateParameters`: recompute every channel's read index from the
current write index and the truncated delay, wrapping into `[0, 4800)`. -/
def Delay_UpdateParameters (st : DelayInstance) : DelayInstance :=
  { st with readIndex := fun ch =>
      if ch < 4 then
        (wrapNonneg ((st.writeIndex : ℤ) - truncQ (st.delaySamples ch)) % 4800).toNat
      else st.readIndex ch }

/-- `Delay_GetSample`: read at the index directly when the fractional part
of the delay is below 0.001 samples, otherwise linearly interpolate with
the next cell and truncate back to int16. -/
def Delay_GetSample (st : DelayInstance) (channel index : ℕ) : ℤ :=
  let delaySamples := st.delaySamples channel
  let intDelay := truncQ delaySamples
  let fraction := delaySamples - intDelay
  if fraction < 1/1000 then st.buffer channel index
  else
    let sample1 := st.buffer channel index
    let sample2 := st.buffer channel ((index + 1) % 4800)
    truncQ ((sample1 : ℚ) * (1 - fraction) + (sample2 : ℚ) * fraction)

/-- Point update of a channel's buffer cell. -/
def updateBuffer (buf : ℕ → ℕ → ℤ) (ch idx : ℕ) (v : ℤ) : ℕ → ℕ → ℤ :=
  fun c j => if c = ch ∧ j = idx then v else buf c j

/-- Selector for one channel of an output frame. -/
def tupleGet : ℕ → ℤ × ℤ × ℤ × ℤ → ℤ
  | 0, o => o.1
  | 1, o => o.2.1
  | 2, o => o.2.2.1
  | _, o => o.2.2.2

/-- Replacement of one channel of an output frame. -/
def tupleSet : ℕ → ℤ → ℤ × ℤ × ℤ × ℤ → ℤ × ℤ × ℤ × ℤ
  | 0, v, o => (v, o.2.1, o.2.2.1, o.2.2.2)
  | 1, v, o => (o.1, v, o.2.2.1, o.2.2.2)
  | 2, v, o => (o.1, o.2.1, v, o.2.2.2)
  | _, v, o => (o.1, o.2.1, o.2.2.1, v)

/-- The per-channel body of the `Delay_Process` sample loop: store the
channel's input at the write index, read the delayed sample at the
channel's read index, and negate (with int16 wrap) when phase-inverted. -/
def Delay_ProcessChannel (st : DelayInstance) (inputSample : ℤ) (ch : ℕ) :
    DelayInstance × ℤ :=
  let st' := { st with buffer := updateBuffer st.buffer ch st.writeIndex inputSample }
  let outputSample := Delay_GetSample st' ch (st'.readIndex ch)
  (st', if st'.phaseInvert ch then toInt16 (-outputSample) else outputSample)

/-- One sample of `Delay_Process`: the four channels in order (the fixed
`DELAY_NUM_CHANNELS = 4` loop unrolled), then the write index and all four
read indices advance modulo 4800. -/
def Delay_ProcessFrame (st : DelayInstance) (frame : ℤ × ℤ × ℤ × ℤ) :
    DelayInstance × (ℤ × ℤ × ℤ × ℤ) :=
  let r0 := Delay_ProcessChannel st frame.1 0
  let r1 := Delay_ProcessChannel r0.1 frame.2.1 1
  let r2 := Delay_ProcessChannel r1.1 frame.2.2.1 2
  let r3 := Delay_ProcessChannel r2.1 frame.2.2.2 3
  let st' := r3.1
  ({ st' with
     writeIndex := (st'.writeIndex + 1) % 4800
     readIndex := fun ch =>
       if ch < 4 then (st'.readIndex ch + 1) % 4800 else st'.readIndex ch },
   (r0.2, r1.2, r2.2, r3.2))

/-- The sample loop of `Delay_Process` over a block of frames. -/
def Delay_ProcessFrames (st : DelayInstance) :
    List (ℤ × ℤ × ℤ × ℤ) → DelayInstance × List (ℤ × ℤ × ℤ × ℤ)
  | [] => (st, [])
  | f :: fs =>
    let r := Delay_ProcessFrame st f
    let rest := Delay_ProcessFrames r.1 fs
    (rest.1, r.2 :: rest.2)

/-- `Delay_Process` from delay.c: apply the deferred parameter update when
flagged (before the first output sample of the block is produced), then run
the sample loop. -/
def Delay_Process (st : DelayInstance) (frames : List (ℤ × ℤ × ℤ × ℤ)) :
    DelayInstance × List (ℤ × ℤ × ℤ × ℤ) :=
  let st' := if st.needsUpdate then
      { Delay_UpdateParameters st with needsUpdate := false }
    else st
  Delay_ProcessFrames st' frames

/-- Sine stand-in used by concrete crossover evaluations. -/
def tSinf : ℚ → ℚ := fun _ => 1/2

/-- Cosine stand-in used by concrete crossover evaluations. -/
def tCosf : ℚ → ℚ := fun _ => 1/2

/-- A length-4 all-zero chain, as produced by the C static initialisation
of the filter arrays, with the given active stage count. -/
def zeroChain (count : ℕ) : FilterChain :=
  ⟨[zeroBiquad, zeroBiquad, zeroBiquad, zeroBiquad], count⟩

/-- The crossover state right after `Crossover_Init` wrote the default
settings over the zero-initialised static arrays (before its own
coefficient computation), used as a concrete evaluation point. -/
def testCrossover : CrossoverFilters :=
  { subLowPass := zeroChain 2
    lowLowPass := zeroChain 2
    lowHighPass := zeroChain 2
    midLowPass := zeroChain 2
    midHighPass := zeroChain 2
    highHighPass := zeroChain 2
    lowCutoff := 100
    midCutoff := 1000
    highCutoff := 5000
    subGain := 1
    lowGain := 1
    midGain := 1
    highGain := 1
    filterType := 1
    filterOrder := 4
    subMute := false
    lowMute := false
    midMute := false
    highMute := false
    sampleRate := 48000 }

/-- A biquad with marker coefficients (7) and marker states (5), used to
show which stages a coefficient recomputation does and does not touch. -/
def markerBiquad : BiquadFilter := ⟨0, 7, 7, 7, 7, 7, 5, 5, 5, 5⟩

/-- `testCrossover` with the marker placed in the second stage of the sub
low-pass chain. -/
def markedCrossover : CrossoverFilters :=
  { testCrossover with
    subLowPass := ⟨[zeroBiquad, markerBiquad, zeroBiquad, zeroBiquad], 2⟩ }

/-- A Linkwitz-Riley, order-4 settings request (the firmware defaults). -/
def lrSettings : CrossoverSettings :=
  { lowCutoff := 100
    midCutoff := 1000
    highCutoff := 5000
    subGain := 0
    lowGain := 0
    midGain := 0
    highGain := 0
    filterType := 1
    filterOrder := 4
    subMute := false
    lowMute := false
    midMute := false
    highMute := false }

/-- A settings request whose low cutoff (5 Hz) lies below the 20 Hz bound. -/
def lowCutoffSettings : CrossoverSettings := { lrSettings with lowCutoff := 5 }

/-- A concrete delay instance: zeroed buffers and indices, as after
`Delay_Init`/`Delay_Reset`. -/
def testDelay : DelayInstance :=
  { buffer := fun _ _ => 0
    writeIndex := 0
    readIndex := fun _ => 0
    phaseInvert := fun _ => false
    delaySamples := fun _ => 0
    needsUpdate := false }


/-- `testCrossover` with every band muted. -/
def mutedCrossover : CrossoverFilters :=
  { testCrossover with subMute := true, lowMute := true, midMute := true, highMute := true }

/-- Identity band stage, used to instantiate the opaque dynamics/delay
stage parameters in witnesses. -/
def idStage : ℕ → (ℕ → ℚ) → (ℕ → ℚ) := fun _ buf => buf

/-- Constant-1 float buffer used by witnesses. -/
def oneBuf : ℕ → ℚ := fun _ => 1

/-- Constant-2 float buffer used by witnesses (over-range after scaling). -/
def twoBuf : ℕ → ℚ := fun _ => 2

/-- Constant-0 float buffer used by witnesses. -/
def zeroBufQ : ℕ → ℚ := fun _ => 0

/-- Helper: the second argument is a lower bound of `cMAX`. -/
theorem le_cMAX_right (a b : ℚ) : b ≤ cMAX a b := by
  unfold cMAX; split <;> linarith

/-- Claim C3: for every enabled compressor, the parameter setter produces
the envelope coefficients `exp(−1/((time_ms/1000)·fs))`, and one processing
step performs peak-hold (`max(|x|, prev |x|)`), dB conversion, asymmetric
envelope following (attack coefficient when rising, release when falling),
gain smoothing (attack when decreasing, release when increasing), returns
the input times the smoothed gain, and the buffer routine applies the
linear makeup gain afterwards. -/
theorem claim_c3_compressor_step (expf log10f pow10f : ℚ → ℚ)
    (comp : Compressor) (p : CompressorParams) (x : ℚ)
    (ha : 0 < p.attack) (hr : 0 < p.release) (he : p.enabled = true) :
    (Dynamics_CompressorSetParams expf comp p).attackCoef
        = expf (-1 / ((p.attack * (1/1000)) * comp.sampleRate)) ∧
    (Dynamics_CompressorSetParams expf comp p).releaseCoef
        = expf (-1 / ((p.release * (1/1000)) * comp.sampleRate)) ∧
    Dynamics_CompressorProcessSample log10f pow10f
        (Dynamics_CompressorSetParams expf comp p) x
      = compressorStepSpec log10f pow10f (Dynamics_CompressorSetParams expf comp p) x ∧
    Dynamics_CompressorProcess log10f pow10f
        (Dynamics_CompressorSetParams expf comp p) [x]
      = ((compressorStepSpec log10f pow10f (Dynamics_CompressorSetParams expf comp p) x).1,
         [(compressorStepSpec log10f pow10f (Dynamics_CompressorSetParams expf comp p) x).2
            * DB_TO_LINEAR pow10f p.makeupGain]) := by
  have hEnabled : (Dynamics_CompressorSetParams expf comp p).params.enabled = true := by
    simp [Dynamics_CompressorSetParams, he]
  have hstep : Dynamics_CompressorProcessSample log10f pow10f
      (Dynamics_CompressorSetParams expf comp p) x
      = compressorStepSpec log10f pow10f (Dynamics_CompressorSetParams expf comp p) x := by
    rw [Dynamics_CompressorProcessSample, if_neg (by simp [hEnabled])]
    rfl
  refine ⟨?_, ?_, hstep, ?_⟩
  · simp [Dynamics_CompressorSetParams, MS_TO_COEF, not_le.mpr ha]
  · simp [Dynamics_CompressorSetParams, MS_TO_COEF, not_le.mpr hr]
  · rw [Dynamics_CompressorProcess, if_neg (by simp [hEnabled])]
    simp only [List.foldl_cons, List.foldl_nil, hstep, List.nil_append]
    simp [Dynamics_CompressorSetParams]

/-- Witness for claim C3 at a concrete compressor and input sample. -/
theorem claim_c3_compressor_step_witness :
    (0 < testCompParams.attack ∧ 0 < testCompParams.release ∧
      testCompParams.enabled = true) ∧
    ((Dynamics_CompressorSetParams tExpf testCompressor testCompParams).attackCoef
        = tExpf (-1 / ((testCompParams.attack * (1/1000)) * testCompressor.sampleRate)) ∧
    (Dynamics_CompressorSetParams tExpf testCompressor testCompParams).releaseCoef
        = tExpf (-1 / ((testCompParams.release * (1/1000)) * testCompressor.sampleRate)) ∧
    Dynamics_CompressorProcessSample tLog10f tPow10f
        (Dynamics_CompressorSetParams tExpf testCompressor testCompParams) (1/2)
      = compressorStepSpec tLog10f tPow10f
          (Dynamics_CompressorSetParams tExpf testCompressor testCompParams) (1/2) ∧
    Dynamics_CompressorProcess tLog10f tPow10f
        (Dynamics_CompressorSetParams tExpf testCompressor testCompParams) [1/2]
      = ((compressorStepSpec tLog10f tPow10f
            (Dynamics_CompressorSetParams tExpf testCompressor testCompParams) (1/2)).1,
         [(compressorStepSpec tLog10f tPow10f
             (Dynamics_CompressorSetParams tExpf testCompressor testCompParams) (1/2)).2
            * DB_TO_LINEAR tPow10f testCompParams.makeupGain])) :=
  ⟨⟨by norm_num [testCompParams], by norm_num [testCompParams], rfl⟩,
   claim_c3_compressor_step tExpf tLog10f tPow10f testCompressor testCompParams (1/2)
     (by norm_num [testCompParams]) (by norm_num [testCompParams]) rfl⟩

/-- Claim C4: for every enabled limiter, the envelope is set directly to a
rising detected level with no smoothing, the target reduction is
`threshold − envelope` above threshold and 0 dB otherwise (hard knee), a
gain decrease is applied instantly, a gain increase is smoothed with the
configured release coefficient, and the parameter setter derives that
coefficient from the configured release time. -/
theorem claim_c4_limiter_step (expf log10f pow10f : ℚ → ℚ)
    (lim : Limiter) (p : LimiterParams) (x : ℚ)
    (hr : 0 < p.release) (he : p.enabled = true) :
    (Dynamics_LimiterSetParams expf lim p).releaseCoef
        = expf (-1 / ((p.release * (1/1000)) * lim.sampleRate)) ∧
    Dynamics_LimiterProcessSample log10f pow10f
        (Dynamics_LimiterSetParams expf lim p) x
      = limiterStepSpec log10f pow10f (Dynamics_LimiterSetParams expf lim p) x := by
  have hEnabled : (Dynamics_LimiterSetParams expf lim p).params.enabled = true := by
    simp [Dynamics_LimiterSetParams, he]
  refine ⟨?_, ?_⟩
  · simp [Dynamics_LimiterSetParams, MS_TO_COEF, not_le.mpr hr]
  · set l := Dynamics_LimiterSetParams expf lim p with hl
    rw [Dynamics_LimiterProcessSample, if_neg (by simp [hEnabled])]
    rw [limiterStepSpec]
    set level := LINEAR_TO_DB log10f (cMAX |x| l.state.prevSample) with hlevel
    set env' := if level > l.state.env then level
      else l.releaseCoef * l.state.env + (1 - l.releaseCoef) * level with henv
    have hred : (if env' > l.params.threshold then l.params.threshold - env' else 0) ≤ 0 := by
      split <;> linarith
    have hguard :
        (if (0:ℚ) < (if env' > l.params.threshold then l.params.threshold - env' else 0)
          then (1:ℚ)
          else DB_TO_LINEAR pow10f
            (if env' > l.params.threshold then l.params.threshold - env' else 0))
        = DB_TO_LINEAR pow10f
            (if env' > l.params.threshold then l.params.threshold - env' else 0) := by
      rw [if_neg (by linarith)]
    simp only [Dynamics_DetectPeak, gt_iff_lt, hguard]

/-- Witness for claim C4 at a concrete limiter and input sample. -/
theorem claim_c4_limiter_step_witness :
    (0 < testLimParams.release ∧ testLimParams.enabled = true) ∧
    ((Dynamics_LimiterSetParams tExpf testLimiter testLimParams).releaseCoef
        = tExpf (-1 / ((testLimParams.release * (1/1000)) * testLimiter.sampleRate)) ∧
    Dynamics_LimiterProcessSample tLog10f tPow10f
        (Dynamics_LimiterSetParams tExpf testLimiter testLimParams) (1/2)
      = limiterStepSpec tLog10f tPow10f
          (Dynamics_LimiterSetParams tExpf testLimiter testLimParams) (1/2)) :=
  ⟨⟨by norm_num [testLimParams], rfl⟩,
   claim_c4_limiter_step tExpf tLog10f tPow10f testLimiter testLimParams (1/2)
     (by norm_num [testLimParams]) rfl⟩

/-- Claim C10: when the attack and release coefficients lie in `[0, 1)` the
smoothed gain-reduction state is at least 0.001 after a reset and stays at
least 0.001 after every processed sample, because the target gain is
floored at 0.001 and each smoothing step is a convex combination of the
previous state and that target; hence the applied gain never reaches 0. -/
theorem claim_c10_gain_floor (log10f pow10f : ℚ → ℚ) (comp : Compressor)
    (x level : ℚ)
    (ha0 : 0 ≤ comp.attackCoef) (ha1 : comp.attackCoef < 1)
    (hr0 : 0 ≤ comp.releaseCoef) (hr1 : comp.releaseCoef < 1)
    (hgr : 1/1000 ≤ comp.state.gainReduction) :
    1/1000 ≤ (Dynamics_CompressorReset comp).state.gainReduction ∧
    1/1000 ≤ calculateCompressorGain pow10f comp level ∧
    1/1000 ≤ (Dynamics_CompressorProcessSample log10f pow10f comp x).1.state.gainReduction ∧
    0 < (Dynamics_CompressorProcessSample log10f pow10f comp x).1.state.gainReduction := by
  have hfloor : ∀ lvl : ℚ, 1/1000 ≤ calculateCompressorGain pow10f comp lvl := by
    intro lvl
    unfold calculateCompressorGain
    exact le_cMAX_right _ _
  have hmain :
      1/1000 ≤ (Dynamics_CompressorProcessSample log10f pow10f comp x).1.state.gainReduction := by
    rw [Dynamics_CompressorProcessSample]
    split
    · exact hgr
    · simp only
      set env' := if LINEAR_TO_DB log10f (Dynamics_DetectPeak |x| comp.state.prevSample)
            > comp.state.env
          then comp.attackCoef * comp.state.env + (1 - comp.attackCoef) *
            LINEAR_TO_DB log10f (Dynamics_DetectPeak |x| comp.state.prevSample)
          else comp.releaseCoef * comp.state.env + (1 - comp.releaseCoef) *
            LINEAR_TO_DB log10f (Dynamics_DetectPeak |x| comp.state.prevSample) with henv
      have hg := hfloor env'
      set g := calculateCompressorGain pow10f comp env' with hgdef
      split
      · nlinarith
      · nlinarith
  refine ⟨by norm_num [Dynamics_CompressorReset], hfloor level, hmain, by linarith⟩

/-- Witness for claim C10 at a concrete compressor state and sample. -/
theorem claim_c10_gain_floor_witness :
    ((0:ℚ) ≤ (1/2) ∧ (1/2:ℚ) < 1 ∧ (0:ℚ) ≤ (1/4) ∧ (1/4:ℚ) < 1 ∧
      (1/1000:ℚ) ≤ 1) ∧
    (1/1000 ≤ (Dynamics_CompressorReset
        { testCompressor with attackCoef := 1/2, releaseCoef := 1/4 }).state.gainReduction ∧
    1/1000 ≤ calculateCompressorGain tPow10f
        { testCompressor with attackCoef := 1/2, releaseCoef := 1/4 } 3 ∧
    1/1000 ≤ (Dynamics_CompressorProcessSample tLog10f tPow10f
        { testCompressor with attackCoef := 1/2, releaseCoef := 1/4 }
        (1/2)).1.state.gainReduction ∧
    0 < (Dynamics_CompressorProcessSample tLog10f tPow10f
        { testCompressor with attackCoef := 1/2, releaseCoef := 1/4 }
        (1/2)).1.state.gainReduction) :=
  ⟨⟨by norm_num, by norm_num, by norm_num, by norm_num, by norm_num [testCompressor]⟩,
   claim_c10_gain_floor tLog10f tPow10f
     { testCompressor with attackCoef := 1/2, releaseCoef := 1/4 } (1/2) 3
     (by norm_num) (by norm_num) (by norm_num) (by norm_num)
     (by norm_num [testCompressor])⟩

/-- Helper: coefficient recomputation never changes the stored low cutoff. -/
theorem CalculateFilterCoefficients_lowCutoff (sinf cosf : ℚ → ℚ)
    (st : CrossoverFilters) :
    (CalculateFilterCoefficients sinf cosf st).lowCutoff = st.lowCutoff := by
  simp only [CalculateFilterCoefficients]
  split <;> rfl

/-- Helper: coefficient recomputation never changes the stored mid cutoff. -/
theorem CalculateFilterCoefficients_midCutoff (sinf cosf : ℚ → ℚ)
    (st : CrossoverFilters) :
    (CalculateFilterCoefficients sinf cosf st).midCutoff = st.midCutoff := by
  simp only [CalculateFilterCoefficients]
  split <;> rfl

/-- Helper: coefficient recomputation never changes the stored high cutoff. -/
theorem CalculateFilterCoefficients_highCutoff (sinf cosf : ℚ → ℚ)
    (st : CrossoverFilters) :
    (CalculateFilterCoefficients sinf cosf st).highCutoff = st.highCutoff := by
  simp only [CalculateFilterCoefficients]
  split <;> rfl

/-- Counterexample to claim C8 as stated: a requested 5 Hz low cutoff,
outside [20 Hz, Nyquist], is stored verbatim by `Crossover_SetSettings`; no
clamping to the nearest valid value happens inside the setter. -/
theorem claim_c8_counterexample :
    (Crossover_SetSettings tPow10f tSinf tCosf testCrossover
        lowCutoffSettings).lowCutoff = 5 ∧
    ¬ 20 ≤ (Crossover_SetSettings tPow10f tSinf tCosf testCrossover
        lowCutoffSettings).lowCutoff := by
  constructor
  · decide
  · decide

/-- Claim C8 (amended): `Crossover_SetSettings` stores every requested
cutoff frequency verbatim — no clamping to [20 Hz, Nyquist] occurs in the
setter — and no out-of-range request is ever surfaced as an error: the
setter is total, stores the values and recomputes coefficients from them;
range enforcement is left to the UI layer. -/
theorem claim_c8_setter_stores_verbatim (pow10f sinf cosf : ℚ → ℚ)
    (st : CrossoverFilters) (settings : CrossoverSettings) :
    (Crossover_SetSettings pow10f sinf cosf st settings).lowCutoff
      = settings.lowCutoff ∧
    (Crossover_SetSettings pow10f sinf cosf st settings).midCutoff
      = settings.midCutoff ∧
    (Crossover_SetSettings pow10f sinf cosf st settings).highCutoff
      = settings.highCutoff := by
  unfold Crossover_SetSettings
  exact ⟨CalculateFilterCoefficients_lowCutoff sinf cosf _,
         CalculateFilterCoefficients_midCutoff sinf cosf _,
         CalculateFilterCoefficients_highCutoff sinf cosf _⟩

/-- Claim C1 (refuted by the source — loop-bound slip in the Linkwitz-Riley
branch): after `Crossover_SetSettings` selects Linkwitz-Riley order 4,
`order/2 = 2` stages are active in each chain, but the coefficient loop
rebuilds only `order/4 = 1` stage.  Stage 1 keeps its stale coefficients
(its state registers are reset), while stage 0 is freshly computed; with
the zero-initialised static arrays this leaves stage 1 with all-zero
coefficients, so the sub and high chains output 0 for a nonzero input
sample even though every band is unmuted at unity gain. -/
theorem claim_c1_lr_stale_coefficients :
    (Crossover_SetSettings tPow10f tSinf tCosf markedCrossover
        lrSettings).subLowPass.filterCount = 2 ∧
    (Crossover_SetSettings tPow10f tSinf tCosf markedCrossover
        lrSettings).subLowPass.filters.get? 1 = some (ResetFilter markerBiquad) ∧
    (Crossover_SetSettings tPow10f tSinf tCosf markedCrossover
        lrSettings).subLowPass.filters.get? 1
      ≠ some (CalculateLinkwitzRileyCoefficients tSinf tCosf 48000
          (ResetFilter markerBiquad) 100 0) ∧
    (Crossover_SetSettings tPow10f tSinf tCosf markedCrossover
        lrSettings).subLowPass.filters.get? 0
      = some (CalculateLinkwitzRileyCoefficients tSinf tCosf 48000 zeroBiquad 100 0) ∧
    (Crossover_ProcessSample (Crossover_SetSettings tPow10f tSinf tCosf
        testCrossover lrSettings) 1).2.1 = 0 ∧
    (Crossover_ProcessSample (Crossover_SetSettings tPow10f tSinf tCosf
        testCrossover lrSettings) 1).2.2.2.2 = 0 := by
  have hstage : (Crossover_SetSettings tPow10f tSinf tCosf markedCrossover
      lrSettings).subLowPass.filters.get? 1 = some (ResetFilter markerBiquad) := by
    simp [Crossover_SetSettings, CalculateFilterCoefficients, ResetAllFilters,
      resetChainStates, calcChainLR, calcStagesLR, markedCrossover, testCrossover,
      zeroChain, lrSettings]
  refine ⟨?_, hstage, ?_, ?_, ?_, ?_⟩
  · norm_num [Crossover_SetSettings, CalculateFilterCoefficients, ResetAllFilters,
      resetChainStates, calcChainLR, markedCrossover, testCrossover, zeroChain,
      lrSettings]
  · rw [hstage]
    intro h
    simp only [Option.some.injEq] at h
    have hb := congrArg BiquadFilter.b0 h
    norm_num [ResetFilter, markerBiquad, CalculateLinkwitzRileyCoefficients,
      CalculateButterworthCoefficients, tSinf, tCosf] at hb
  · simp [Crossover_SetSettings, CalculateFilterCoefficients, ResetAllFilters,
      resetChainStates, calcChainLR, calcStagesLR, markedCrossover, testCrossover,
      zeroChain, lrSettings, ResetFilter, zeroBiquad]
  · simp [Crossover_ProcessSample, ProcessFilterChain, ProcessFilterChainAux,
      ProcessBiquad, Crossover_SetSettings, CalculateFilterCoefficients,
      ResetAllFilters, resetChainStates, calcChainLR, calcStagesLR, ResetFilter,
      testCrossover, zeroChain, zeroBiquad, lrSettings]
  · simp [Crossover_ProcessSample, ProcessFilterChain, ProcessFilterChainAux,
      ProcessBiquad, Crossover_SetSettings, CalculateFilterCoefficients,
      ResetAllFilters, resetChainStates, calcChainLR, calcStagesLR, ResetFilter,
      testCrossover, zeroChain, zeroBiquad, lrSettings]

/-- Helper for claim C2: every output of `Crossover_Process` has a zero
component for each muted band, whatever the gains and the filter state. -/
theorem crossover_mute_zero (input : List ℚ) :
    ∀ (st : CrossoverFilters) (o : ℚ × ℚ × ℚ × ℚ),
      o ∈ (Crossover_Process st input).2 →
      (st.subMute = true → o.1 = 0) ∧ (st.lowMute = true → o.2.1 = 0) ∧
      (st.midMute = true → o.2.2.1 = 0) ∧ (st.highMute = true → o.2.2.2 = 0) := by
  induction input with
  | nil =>
    intro st o h
    simp [Crossover_Process] at h
  | cons x xs ih =>
    intro st o h
    simp only [Crossover_Process, List.mem_cons] at h
    rcases h with h | h
    · subst h
      refine ⟨?_, ?_, ?_, ?_⟩ <;> intro hm <;> simp [Crossover_ProcessSample, hm]
    · have h4 := ih (Crossover_ProcessSample st x).1 o h
      have hsub : (Crossover_ProcessSample st x).1.subMute = st.subMute := rfl
      have hlow : (Crossover_ProcessSample st x).1.lowMute = st.lowMute := rfl
      have hmid : (Crossover_ProcessSample st x).1.midMute = st.midMute := rfl
      have hhigh : (Crossover_ProcessSample st x).1.highMute = st.highMute := rfl
      exact ⟨fun hm => h4.1 (by rw [hsub, hm]),
             fun hm => h4.2.1 (by rw [hlow, hm]),
             fun hm => h4.2.2.1 (by rw [hmid, hm]),
             fun hm => h4.2.2.2 (by rw [hhigh, hm])⟩

/-- Claim C2: a muted band's output samples are exactly 0 for every sample
of the block, whatever the band gain and compressor/limiter/delay settings
— in the crossover itself (first four conjuncts) and in the band loop of
`AudioProcessing_Process`, where a muted band is zeroed, skips the gain and
dynamics and delay stages, and therefore contributes exactly zero to the
mixed output (remaining conjuncts, for whichever mix slot the band holds). -/
theorem claim_c2_mute_zero (st : CrossoverFilters) (input : List ℚ)
    (o : ℚ × ℚ × ℚ × ℚ) (ho : o ∈ (Crossover_Process st input).2)
    (pow10f : ℚ → ℚ) (compS limS delS : ℕ → (ℕ → ℚ) → (ℕ → ℚ))
    (n band : ℕ) (gainDB : ℚ) (ce li : Bool)
    (bufm a b c d : ℕ → ℚ) (i : ℕ) (hi : i < n) :
    (st.subMute = true → o.1 = 0) ∧
    (st.lowMute = true → o.2.1 = 0) ∧
    (st.midMute = true → o.2.2.1 = 0) ∧
    (st.highMute = true → o.2.2.2 = 0) ∧
    AudioProcessing_ProcessBand pow10f compS limS delS n band true gainDB ce li bufm i
      = 0 ∧
    MixBands (AudioProcessing_ProcessBand pow10f compS limS delS n band true gainDB
        ce li bufm) b c d i = b i + c i + d i ∧
    MixBands a (AudioProcessing_ProcessBand pow10f compS limS delS n band true gainDB
        ce li bufm) c d i = a i + c i + d i ∧
    MixBands a b (AudioProcessing_ProcessBand pow10f compS limS delS n band true gainDB
        ce li bufm) d i = a i + b i + d i ∧
    MixBands a b c (AudioProcessing_ProcessBand pow10f compS limS delS n band true
        gainDB ce li bufm) i = a i + b i + c i := by
  have h4 := crossover_mute_zero input st o ho
  have hz : AudioProcessing_ProcessBand pow10f compS limS delS n band true gainDB
      ce li bufm i = 0 := by
    simp [AudioProcessing_ProcessBand, hi]
  refine ⟨h4.1, h4.2.1, h4.2.2.1, h4.2.2.2, hz, ?_, ?_, ?_, ?_⟩ <;>
    simp [MixBands, hz]

/-- Witness for claim C2 at a concrete all-muted crossover state, block,
and band-loop instance. -/
theorem claim_c2_mute_zero_witness :
    (((0 : ℚ), (0 : ℚ), (0 : ℚ), (0 : ℚ)) ∈ (Crossover_Process mutedCrossover [1]).2 ∧
      (0 : ℕ) < 1 ∧ mutedCrossover.subMute = true) ∧
    (((0 : ℚ), (0 : ℚ), (0 : ℚ), (0 : ℚ)).1 = 0 ∧
     AudioProcessing_ProcessBand tPow10f idStage idStage idStage 1 0 true 0 false
        false oneBuf 0 = 0 ∧
     MixBands (AudioProcessing_ProcessBand tPow10f idStage idStage idStage 1 0 true 0
        false false oneBuf) oneBuf oneBuf oneBuf 0 = oneBuf 0 + oneBuf 0 + oneBuf 0) := by
  have hmem : ((0 : ℚ), (0 : ℚ), (0 : ℚ), (0 : ℚ)) ∈
      (Crossover_Process mutedCrossover [1]).2 := by
    simp [Crossover_Process, Crossover_ProcessSample, mutedCrossover, testCrossover]
  have h := claim_c2_mute_zero mutedCrossover [1] (0, 0, 0, 0) hmem tPow10f idStage
    idStage idStage 1 0 0 false false oneBuf oneBuf oneBuf oneBuf oneBuf 0
    (by norm_num)
  exact ⟨⟨hmem, by norm_num, rfl⟩, h.1 rfl, h.2.2.2.2.1, h.2.2.2.2.2.1⟩

/-- Helper for claim C5: the wrap-around loop yields a nonnegative value
congruent to its argument modulo the buffer size. -/
theorem wrapNonneg_spec_aux :
    ∀ (n : ℕ) (z : ℤ), (-z).toNat = n →
      0 ≤ wrapNonneg z ∧ wrapNonneg z % 4800 = z % 4800 := by
  intro n
  induction n using Nat.strong_induction_on with
  | _ n ih =>
    intro z hz
    rw [wrapNonneg]
    split
    · rename_i hneg
      have h1 := ih (-(z + 4800)).toNat (by omega) (z + 4800) rfl
      refine ⟨h1.1, ?_⟩
      rw [h1.2]
      omega
    · rename_i hpos
      exact ⟨by omega, rfl⟩

/-- Helper for claim C5, closed form. -/
theorem wrapNonneg_spec (z : ℤ) :
    0 ≤ wrapNonneg z ∧ wrapNonneg z % 4800 = z % 4800 :=
  wrapNonneg_spec_aux (-z).toNat z rfl

/-- Claim C5: `Delay_SetDelayTime` clamps the stored delay to
[0 ms, 100 ms], leaves the delay buffer contents unchanged, and flags a
deferred parameter update; the update (run by `Delay_Process` before any
output sample of the next block is produced) recomputes the band's read
index as `(writeIndex − floor(delaySamples) + 4800) mod 4800` and also
leaves the buffer contents unchanged.  (`truncQ` is truncation toward
zero, which equals `floor` here since the clamped delay is nonnegative.) -/
theorem claim_c5_delay_change (st : DelayInstance) (ch : ℕ) (d : ℚ)
    (frames : List (ℤ × ℤ × ℤ × ℤ))
    (hch : ch < 4) (hw : st.writeIndex < 4800) :
    (Delay_SetDelayTime st ch d).buffer = st.buffer ∧
    (Delay_SetDelayTime st ch d).delaySamples ch = cCLAMP d 0 MAX_DELAY_MS * 48 ∧
    (Delay_SetDelayTime st ch d).needsUpdate = true ∧
    (Delay_UpdateParameters (Delay_SetDelayTime st ch d)).buffer = st.buffer ∧
    (Delay_UpdateParameters (Delay_SetDelayTime st ch d)).readIndex ch
      = (st.writeIndex + 4800
          - (truncQ (cCLAMP d 0 MAX_DELAY_MS * 48)).toNat) % 4800 ∧
    Delay_Process (Delay_SetDelayTime st ch d) frames
      = Delay_ProcessFrames
          { Delay_UpdateParameters (Delay_SetDelayTime st ch d) with
            needsUpdate := false } frames := by
  have hch' : ¬ 4 ≤ ch := by omega
  have hq0 : 0 ≤ cCLAMP d 0 MAX_DELAY_MS := by
    unfold cCLAMP MAX_DELAY_MS
    split_ifs <;> linarith
  have hq1 : cCLAMP d 0 MAX_DELAY_MS ≤ 100 := by
    unfold cCLAMP MAX_DELAY_MS
    split_ifs <;> linarith
  have hQ0 : (0 : ℚ) ≤ cCLAMP d 0 MAX_DELAY_MS * 48 := by linarith
  have hQ1 : cCLAMP d 0 MAX_DELAY_MS * 48 ≤ 4800 := by linarith
  have ht : truncQ (cCLAMP d 0 MAX_DELAY_MS * 48) = ⌊cCLAMP d 0 MAX_DELAY_MS * 48⌋ := by
    unfold truncQ
    rw [if_neg (by linarith)]
  have ht0 : 0 ≤ truncQ (cCLAMP d 0 MAX_DELAY_MS * 48) := by
    rw [ht]
    exact Int.floor_nonneg.mpr hQ0
  have ht1 : truncQ (cCLAMP d 0 MAX_DELAY_MS * 48) ≤ 4800 := by
    rw [ht]
    calc ⌊cCLAMP d 0 MAX_DELAY_MS * 48⌋ ≤ ⌊(4800 : ℚ)⌋ := Int.floor_mono hQ1
    _ = 4800 := by norm_num
  refine ⟨?_, ?_, ?_, ?_, ?_, ?_⟩
  · simp [Delay_SetDelayTime, hch']
  · simp [Delay_SetDelayTime, hch']
  · simp [Delay_SetDelayTime, hch']
  · simp [Delay_UpdateParameters, Delay_SetDelayTime, hch']
  · have hread : (Delay_UpdateParameters (Delay_SetDelayTime st ch d)).readIndex ch
        = (wrapNonneg ((st.writeIndex : ℤ)
            - truncQ (cCLAMP d 0 MAX_DELAY_MS * 48)) % 4800).toNat := by
      simp [Delay_UpdateParameters, Delay_SetDelayTime, hch', hch]
    rw [hread]
    have hw1 := wrapNonneg_spec ((st.writeIndex : ℤ)
      - truncQ (cCLAMP d 0 MAX_DELAY_MS * 48))
    omega
  · simp [Delay_Process, Delay_SetDelayTime, hch']

/-- A concrete delay fixture is reused from `testDelay`; witness for claim
C5 at channel 0 with a 10 ms request. -/
theorem claim_c5_delay_change_witness :
    ((0 : ℕ) < 4 ∧ testDelay.writeIndex < 4800) ∧
    ((Delay_SetDelayTime testDelay 0 10).buffer = testDelay.buffer ∧
     (Delay_SetDelayTime testDelay 0 10).delaySamples 0
       = cCLAMP 10 0 MAX_DELAY_MS * 48 ∧
     (Delay_SetDelayTime testDelay 0 10).needsUpdate = true ∧
     (Delay_UpdateParameters (Delay_SetDelayTime testDelay 0 10)).buffer
       = testDelay.buffer ∧
     (Delay_UpdateParameters (Delay_SetDelayTime testDelay 0 10)).readIndex 0
       = (testDelay.writeIndex + 4800
           - (truncQ (cCLAMP 10 0 MAX_DELAY_MS * 48)).toNat) % 4800 ∧
     Delay_Process (Delay_SetDelayTime testDelay 0 10) []
       = Delay_ProcessFrames
           { Delay_UpdateParameters (Delay_SetDelayTime testDelay 0 10) with
             needsUpdate := false } []) :=
  ⟨⟨by norm_num, by norm_num [testDelay]⟩,
   claim_c5_delay_change testDelay 0 10 [] (by norm_num) (by norm_num [testDelay])⟩

/-- Claim C7: with bypass enabled, the block-processing operation copies
the input block to the output unchanged (in particular a full-scale ±32767
block is reproduced exactly), still updates the input peak meters and
mirrors them to the output peak meters, and runs no other stage: the clip
counter, band peaks, compression and limiter meters are untouched. -/
theorem claim_c7_bypass_pass
    (nonBypass : (ℕ → ℤ) → AudioProcessingStats → (ℕ → ℤ) × AudioProcessingStats)
    (tick : ℕ) (input : ℕ → ℤ) (stats : AudioProcessingStats) (j : ℕ) :
    (AudioProcessing_Process nonBypass true tick input stats).1 j = input j ∧
    (AudioProcessing_Process nonBypass true tick input stats).2.inputPeakL
      = UpdatePeakLevel (ConvertToFloat input).1 128 stats.inputPeakL ∧
    (AudioProcessing_Process nonBypass true tick input stats).2.inputPeakR
      = UpdatePeakLevel (ConvertToFloat input).2 128 stats.inputPeakR ∧
    (AudioProcessing_Process nonBypass true tick input stats).2.outputPeakL
      = (AudioProcessing_Process nonBypass true tick input stats).2.inputPeakL ∧
    (AudioProcessing_Process nonBypass true tick input stats).2.outputPeakR
      = (AudioProcessing_Process nonBypass true tick input stats).2.inputPeakR ∧
    (AudioProcessing_Process nonBypass true tick input stats).2.clippingCount
      = stats.clippingCount ∧
    (AudioProcessing_Process nonBypass true tick input stats).2.bandPeak
      = stats.bandPeak ∧
    (AudioProcessing_Process nonBypass true tick input stats).2.compressionAmount
      = stats.compressionAmount ∧
    (AudioProcessing_Process nonBypass true tick input stats).2.limiterActivity
      = stats.limiterActivity :=
  ⟨rfl, rfl, rfl, rfl, rfl, rfl, rfl, rfl, rfl⟩

/-- Helper for claim C6: the interleaved output samples of the conversion
are the per-sample conversions of the corresponding channel values. -/
theorem convertToInt16_out (inputL inputR : ℕ → ℚ) :
    ∀ (n i : ℕ), i < n →
      (ConvertToInt16 inputL inputR n).1 (2 * i) = (convertSampleI16 (inputL i)).1 ∧
      (ConvertToInt16 inputL inputR n).1 (2 * i + 1)
        = (convertSampleI16 (inputR i)).1 := by
  intro n
  induction n with
  | zero => omega
  | succ m ih =>
    intro i hi
    by_cases him : i = m
    · subst him
      constructor <;> simp [ConvertToInt16]
    · have hlt : i < m := by omega
      have h := ih i hlt
      constructor
      · simp only [ConvertToInt16]
        rw [if_neg (by omega), if_neg (by omega)]
        exact h.1
      · simp only [ConvertToInt16]
        rw [if_neg (by omega), if_neg (by omega)]
        exact h.2

/-- Claim C6: in the float→int16 conversion, an output sample whose
pre-clamp scaled value exceeds the int16 range is clamped to the nearest
bound (never wrapped) and contributes exactly 1 to the clip counter; an
in-range sample contributes exactly 0; the block's clip-counter increment
is the sum of these per-sample contributions. -/
theorem claim_c6_clip_count (inputL inputR : ℕ → ℚ) (n i : ℕ) (q : ℚ)
    (hi : i < n) :
    (q * 32767 > 32767 → convertSampleI16 q = (32767, 1)) ∧
    (q * 32767 < -32768 → convertSampleI16 q = (-32768, 1)) ∧
    (-32768 ≤ q * 32767 → q * 32767 ≤ 32767 → (convertSampleI16 q).2 = 0) ∧
    (ConvertToInt16 inputL inputR (n + 1)).2
      = (ConvertToInt16 inputL inputR n).2 + (convertSampleI16 (inputL n)).2
        + (convertSampleI16 (inputR n)).2 ∧
    (ConvertToInt16 inputL inputR n).1 (2 * i) = (convertSampleI16 (inputL i)).1 ∧
    (ConvertToInt16 inputL inputR n).1 (2 * i + 1)
      = (convertSampleI16 (inputR i)).1 := by
  have hout := convertToInt16_out inputL inputR n i hi
  refine ⟨?_, ?_, ?_, ?_, hout.1, hout.2⟩
  · intro h
    have hclamp : cCLAMP (q * 32767) (-32768) 32767 = 32767 := by
      unfold cCLAMP
      rw [if_pos h]
    have htr : truncQ (32767 : ℚ) = 32767 := by
      unfold truncQ
      rw [if_neg (by norm_num)]
      norm_num
    simp only [convertSampleI16]
    rw [if_pos (Or.inl h), hclamp, htr]
  · intro h
    have hclamp : cCLAMP (q * 32767) (-32768) 32767 = -32768 := by
      unfold cCLAMP
      rw [if_neg (by linarith), if_pos h]
    have htr : truncQ (-32768 : ℚ) = -32768 := by
      unfold truncQ
      rw [if_pos (by norm_num)]
      norm_num
    simp only [convertSampleI16]
    rw [if_pos (Or.inr h), hclamp, htr]
  · intro h1 h2
    have : ¬ (q * 32767 > 32767 ∨ q * 32767 < -32768) := by
      push_neg
      exact ⟨h2, h1⟩
    simp only [convertSampleI16]
    rw [if_neg this]
  · simp [ConvertToInt16]

/-- Witness for claim C6 at a concrete over-range sample. -/
theorem claim_c6_clip_count_witness :
    ((0 : ℕ) < 1) ∧
    (((2 : ℚ) * 32767 > 32767 → convertSampleI16 2 = (32767, 1)) ∧
     ((2 : ℚ) * 32767 < -32768 → convertSampleI16 2 = (-32768, 1)) ∧
     (-32768 ≤ (2 : ℚ) * 32767 → (2 : ℚ) * 32767 ≤ 32767 →
       (convertSampleI16 2).2 = 0) ∧
     (ConvertToInt16 twoBuf zeroBufQ (1 + 1)).2
       = (ConvertToInt16 twoBuf zeroBufQ 1).2 + (convertSampleI16 (twoBuf 1)).2
         + (convertSampleI16 (zeroBufQ 1)).2 ∧
     (ConvertToInt16 twoBuf zeroBufQ 1).1 (2 * 0) = (convertSampleI16 (twoBuf 0)).1 ∧
     (ConvertToInt16 twoBuf zeroBufQ 1).1 (2 * 0 + 1)
       = (convertSampleI16 (zeroBufQ 0)).1) :=
  ⟨by norm_num, claim_c6_clip_count twoBuf zeroBufQ 1 0 2 (by norm_num)⟩

/-- Helper for claim C9, one frame: with the phase flag of channel `ch`
set, the delay state evolves exactly as with the flag clear (only the flag
itself differs), and the frame's outputs differ only in channel `ch`,
which carries the int16-wrapped negation. -/
theorem delay_frame_invert (s : DelayInstance) (p : ℕ → Bool)
    (f : ℤ × ℤ × ℤ × ℤ) (ch : ℕ) (hch : ch < 4) :
    (Delay_ProcessFrame { s with phaseInvert := Function.update p ch true } f).1
      = { (Delay_ProcessFrame { s with phaseInvert := Function.update p ch false } f).1
          with phaseInvert := Function.update p ch true } ∧
    (Delay_ProcessFrame { s with phaseInvert := Function.update p ch true } f).2
      = tupleSet ch (toInt16 (- tupleGet ch
            (Delay_ProcessFrame { s with phaseInvert := Function.update p ch false } f).2))
          (Delay_ProcessFrame { s with phaseInvert := Function.update p ch false } f).2 := by
  interval_cases ch <;>
    exact ⟨rfl, by
      simp [Delay_ProcessFrame, Delay_ProcessChannel, tupleSet, tupleGet,
        Function.update, Delay_GetSample, updateBuffer]⟩

/-- Helper for claim C9, whole blocks: the sample loop with the phase flag
of channel `ch` set produces the same final delay state (apart from the
flag) and outputs that differ only in channel `ch`, wrapped-negated. -/
theorem delay_frames_invert (ch : ℕ) (hch : ch < 4) :
    ∀ (frames : List (ℤ × ℤ × ℤ × ℤ)) (s : DelayInstance) (p : ℕ → Bool),
      (Delay_ProcessFrames { s with phaseInvert := Function.update p ch true }
          frames).1
        = { (Delay_ProcessFrames { s with phaseInvert := Function.update p ch false }
              frames).1 with phaseInvert := Function.update p ch true } ∧
      (Delay_ProcessFrames { s with phaseInvert := Function.update p ch true }
          frames).2
        = ((Delay_ProcessFrames { s with phaseInvert := Function.update p ch false }
              frames).2).map (fun o => tupleSet ch (toInt16 (- tupleGet ch o)) o) := by
  intro frames
  induction frames with
  | nil => intro s p; exact ⟨rfl, rfl⟩
  | cons f fs ih =>
    intro s p
    have hf := delay_frame_invert s p f ch hch
    simp only [Delay_ProcessFrames]
    rw [hf.1, hf.2]
    set X := (Delay_ProcessFrame { s with phaseInvert := Function.update p ch false }
      f).1 with hX
    have hpi : X.phaseInvert = Function.update p ch false := by
      rw [hX]
      rfl
    have heta : { X with phaseInvert := Function.update p ch false } = X := by
      rw [← hpi]
    have hrest := ih X p
    rw [heta] at hrest
    exact ⟨hrest.1, by rw [hrest.2, List.map_cons]⟩

/-- Counterexample to claim C9 as stated: with an input sample of −32768 on
a zero-delay channel with phase-invert set, the produced output sample is
−32768 — not the exact negation 32768, which is not representable in int16
(the C negation of an int16 wraps). -/
theorem claim_c9_counterexample :
    (Delay_Process
        { testDelay with phaseInvert := Function.update testDelay.phaseInvert 0 true }
        [(-32768, 0, 0, 0)]).2 = [(-32768, 0, 0, 0)] ∧
    (Delay_Process
        { testDelay with phaseInvert := Function.update testDelay.phaseInvert 0 false }
        [(-32768, 0, 0, 0)]).2 = [(-32768, 0, 0, 0)] ∧
    (-32768 : ℤ) ≠ -(-32768 : ℤ) := by
  refine ⟨?_, ?_, by norm_num⟩ <;>
    norm_num [Delay_Process, Delay_ProcessFrames, Delay_ProcessFrame,
      Delay_ProcessChannel, Delay_GetSample, updateBuffer, Function.update,
      truncQ, toInt16, testDelay]

/-- Claim C9 (amended): with the phase-invert flag of a band set, every
output sample of that band equals the int16-wrapped negation of the sample
produced in the same state with the flag clear — the exact negation
whenever that sample is not −32768, since `toInt16 (−z) = −z` on
(−32768, 32767] — while every other band's output samples and the whole
delay state (buffers, indices, delays) evolve identically. -/
theorem claim_c9_phase_invert_wrap (s : DelayInstance) (p : ℕ → Bool)
    (frames : List (ℤ × ℤ × ℤ × ℤ)) (ch : ℕ) (z : ℤ)
    (hch : ch < 4) (hz1 : -32768 < z) (hz2 : z ≤ 32767) :
    (Delay_Process { s with phaseInvert := Function.update p ch true } frames).1
      = { (Delay_Process { s with phaseInvert := Function.update p ch false }
            frames).1 with phaseInvert := Function.update p ch true } ∧
    (Delay_Process { s with phaseInvert := Function.update p ch true } frames).2
      = ((Delay_Process { s with phaseInvert := Function.update p ch false }
            frames).2).map (fun o => tupleSet ch (toInt16 (- tupleGet ch o)) o) ∧
    toInt16 (-z) = -z := by
  refine ⟨?_, ?_, ?_⟩
  · by_cases hu : s.needsUpdate
    · have e1 : Delay_Process { s with phaseInvert := Function.update p ch true } frames
          = Delay_ProcessFrames
              { { Delay_UpdateParameters s with needsUpdate := false }
                with phaseInvert := Function.update p ch true } frames := by
        simp only [Delay_Process, hu, if_pos]
        rfl
      have e2 : Delay_Process { s with phaseInvert := Function.update p ch false } frames
          = Delay_ProcessFrames
              { { Delay_UpdateParameters s with needsUpdate := false }
                with phaseInvert := Function.update p ch false } frames := by
        simp only [Delay_Process, hu, if_pos]
        rfl
      rw [e1, e2]
      exact (delay_frames_invert ch hch frames
        { Delay_UpdateParameters s with needsUpdate := false } p).1
    · have e1 : Delay_Process { s with phaseInvert := Function.update p ch true } frames
          = Delay_ProcessFrames { s with phaseInvert := Function.update p ch true }
              frames := by
        simp only [Delay_Process, hu]
        rfl
      have e2 : Delay_Process { s with phaseInvert := Function.update p ch false } frames
          = Delay_ProcessFrames { s with phaseInvert := Function.update p ch false }
              frames := by
        simp only [Delay_Process, hu]
        rfl
      rw [e1, e2]
      exact (delay_frames_invert ch hch frames s p).1
  · by_cases hu : s.needsUpdate
    · have e1 : Delay_Process { s with phaseInvert := Function.update p ch true } frames
          = Delay_ProcessFrames
              { { Delay_UpdateParameters s with needsUpdate := false }
                with phaseInvert := Function.update p ch true } frames := by
        simp only [Delay_Process, hu, if_pos]
        rfl
      have e2 : Delay_Process { s with phaseInvert := Function.update p ch false } frames
          = Delay_ProcessFrames
              { { Delay_UpdateParameters s with needsUpdate := false }
                with phaseInvert := Function.update p ch false } frames := by
        simp only [Delay_Process, hu, if_pos]
        rfl
      rw [e1, e2]
      exact (delay_frames_invert ch hch frames
        { Delay_UpdateParameters s with needsUpdate := false } p).2
    · have e1 : Delay_Process { s with phaseInvert := Function.update p ch true } frames
          = Delay_ProcessFrames { s with phaseInvert := Function.update p ch true }
              frames := by
        simp only [Delay_Process, hu]
        rfl
      have e2 : Delay_Process { s with phaseInvert := Function.update p ch false } frames
          = Delay_ProcessFrames { s with phaseInvert := Function.update p ch false }
              frames := by
        simp only [Delay_Process, hu]
        rfl
      rw [e1, e2]
      exact (delay_frames_invert ch hch frames s p).2
  · simp only [toInt16]
    omega

/-- Witness for claim C9 at a concrete delay state, block and channel. -/
theorem claim_c9_phase_invert_wrap_witness :
    ((0 : ℕ) < 4 ∧ (-32768 : ℤ) < 5 ∧ (5 : ℤ) ≤ 32767) ∧
    ((Delay_Process { testDelay with phaseInvert := Function.update testDelay.phaseInvert 0 true } [(5, 0, 0, 0)]).1
      = { (Delay_Process { testDelay with phaseInvert := Function.update testDelay.phaseInvert 0 false } [(5, 0, 0, 0)]).1
          with phaseInvert := Function.update testDelay.phaseInvert 0 true } ∧
    (Delay_Process { testDelay with phaseInvert := Function.update testDelay.phaseInvert 0 true } [(5, 0, 0, 0)]).2
      = ((Delay_Process { testDelay with phaseInvert := Function.update testDelay.phaseInvert 0 false } [(5, 0, 0, 0)]).2).map
          (fun o => tupleSet 0 (toInt16 (- tupleGet 0 o)) o) ∧
    toInt16 (-(5 : ℤ)) = -(5 : ℤ)) :=
  ⟨⟨by norm_num, by norm_num, by norm_num⟩,
   claim_c9_phase_invert_wrap testDelay testDelay.phaseInvert [(5, 0, 0, 0)] 0 5
     (by norm_num) (by norm_num) (by norm_num)⟩
